import Mathlib

/-!
Shallow embedding of the Snyk security-scanner pipeline:
the action-plan agent (`actionPlanAgent.js`, class `ActionPlanAgent` with
`generateWithOpenAI`, `generateFallback`, `generate` and the shared
`summarizePackages` helper), the legacy deterministic planner variant
(`src/actionPlanAgent.js`), and the Express backend (`server/index.js`:
`deriveRepoName`, `formatSnykPayload`, `buildHelpfulErrorDetail`,
`cleanUpDir` and the `/api/scan` handler).

JavaScript values are embedded with explicit options: a possibly-missing
string field is `Option String` (with `none` for `undefined`/`null`), and
JS truthiness on strings ("" is falsy) is the `jsTruthy` predicate.
External collaborators (the git clone, the scanner subprocess, the JSON
parser and the OpenAI client) are oracles carried in an environment
record; the control flow around them is translated statement by statement.
-/

namespace SnykScanner

/-- Truthiness of a possibly-missing JS string: `undefined`, `null` and
the empty string are falsy, every other string is truthy. -/
def jsTruthy : Option String → Bool
  | some s => s != ""
  | none => false

/-- JS `a || b` on possibly-missing strings. -/
def jsStrOr (a b : Option String) : Option String :=
  if jsTruthy a then a else b

/-- JS `a || null` on a possibly-missing string. -/
def jsStrOrNull (a : Option String) : Option String :=
  if jsTruthy a then a else none

/-- JS `a || b` where the fallback `b` is a plain string. -/
def jsOrStr (a : Option String) (b : String) : String :=
  match a with
  | some s => if s != "" then s else b
  | none => b

/-- JS `a || b` on plain strings. -/
def jsOrStrS (a b : String) : String :=
  if a != "" then a else b

/-- Insertion into a JS `Set` viewed as a first-seen-order list. -/
def jsSetAdd (acc : List String) (x : String) : List String :=
  if x ∈ acc then acc else acc ++ [x]

/-- `[...new Set(l)]`: deduplication keeping first occurrences in order. -/
def jsSetDedup (l : List String) : List String :=
  l.foldl jsSetAdd []

/-- `issues.map((issue) => issue.packageName).filter(Boolean)` — the truthy
package names of a list of issues, duplicates kept. -/
def truthyPackages (packageNames : List (Option String)) : List String :=
  (packageNames.filterMap id).filter (fun s => s != "")

/-- `summarizePackages` from `actionPlanAgent.js` (lines 11-19), applied to
the `packageName` projections of the issue list: up to five first-seen
distinct truthy names, comma-joined, with an ellipsis marker appended when
the truthy occurrence count exceeds the number of listed names. -/
def summarizePackages (packageNames : List (Option String)) : Option String :=
  let packages := truthyPackages packageNames
  let unique := (jsSetDedup packages).take 5
  if unique.length = 0 then none
  else
    let list := String.intercalate ", " unique
    some (if packages.length > unique.length then list ++ ", …" else list)

/-- `const severityOrder = ['critical', 'high', 'medium', 'low']`. -/
def severityOrder : List String := ["critical", "high", "medium", "low"]

/-- Canonical issue shape produced by `formatSnykPayload` and consumed by
the planner. `«from»` is `Option (List String)` because the source copies
the raw `from` field through without a default. -/
structure CanonicalIssue where
  id : Option String
  title : Option String
  severity : Option String
  packageName : Option String
  version : Option String
  «from» : Option (List String)
  description : Option String
  url : Option String
  publicationTime : Option String
  upgradePath : List String
  isPatched : Bool
  deriving DecidableEq

/-- Canonical license-finding shape produced by `formatSnykPayload`. -/
structure CanonicalLicense where
  id : Option String
  title : Option String
  severity : Option String
  packageName : Option String
  description : Option String
  url : Option String
  deriving DecidableEq

/-- The slice of the normalized report that the planner reads
(`scanResult.repositoryAccessible`, `.issues`, `.licenses`); `none` in the
option fields models a missing / non-array field. -/
structure ScanResult where
  repositoryAccessible : Bool
  issues : Option (List CanonicalIssue)
  licenses : Option (List CanonicalLicense)
  deriving DecidableEq

/-- Provenance tag of a plan (`source: 'openai' | 'fallback'`). -/
inductive PlanSource
  | openai
  | fallback
  deriving DecidableEq

/-- A remediation plan as returned by `ActionPlanAgent`. -/
structure Plan where
  steps : List String
  noAction : Bool
  source : PlanSource
  deriving DecidableEq

/-- `severity.charAt(0).toUpperCase() + severity.slice(1)`. -/
def capitalizeSeverity (s : String) : String :=
  (s.take 1).toUpper ++ s.drop 1

/-- The `fixHints` set built per severity bucket (lines 153-161): iterate
the bucket, adding the upgrade hint when an issue has a truthy entry in its
upgrade path and the patch hint when an issue is flagged patched, keeping
JS `Set` insertion order. -/
def fixHintsOf (issues : List CanonicalIssue) : List String :=
  issues.foldl
    (fun acc issue =>
      let acc1 :=
        if issue.upgradePath.any (fun v => v != "") then
          jsSetAdd acc "upgrade dependencies to secure versions"
        else acc
      if issue.isPatched then jsSetAdd acc1 "apply available patches" else acc1)
    []

/-- The step pushed for one non-empty severity bucket (lines 150-166). -/
def severityStep (severity : String) (issues : List CanonicalIssue) : String :=
  let packages := summarizePackages (issues.map CanonicalIssue.packageName)
  let title := capitalizeSeverity severity ++ " vulnerabilities"
  let hints := fixHintsOf issues
  let hintText :=
    if hints.length > 0 then " (" ++ String.intercalate " or " hints ++ ")" else ""
  let packageText :=
    match packages with
    | some p => " (" ++ p ++ ")"
    | none => ""
  "Resolve " ++ title ++ " first" ++ packageText ++ hintText ++ "."

/-- The license-review step pushed when license findings exist
(lines 169-174). -/
def licenseStep (licenses : List CanonicalLicense) : String :=
  let licensePkgs := summarizePackages (licenses.map CanonicalLicense.packageName)
  "Review license findings" ++
    (match licensePkgs with
     | some p => " for " ++ p
     | none => "") ++
    " with legal/compliance teams."

/-- The severity-bucket steps: for each severity in `severityOrder`, filter
the issues with exactly that severity and emit one step when the bucket is
non-empty (lines 141-167). -/
def severitySteps (issues : List CanonicalIssue) : List String :=
  severityOrder.filterMap (fun severity =>
    let bucket := issues.filter (fun issue => issue.severity == some severity)
    if bucket.length = 0 then none else some (severityStep severity bucket))

/-- `ActionPlanAgent.generateFallback` (lines 125-187). Note the final
return (lines 182-186) builds a fresh `steps: []`, so any license step
pushed earlier is discarded when the issue list is empty. -/
def generateFallback (scanResult : Option ScanResult) : Plan :=
  match scanResult with
  | none => { steps := [], noAction := true, source := PlanSource.fallback }
  | some r =>
    if !r.repositoryAccessible then
      { steps := ["Restore repository access so automated scans can run."],
        noAction := false, source := PlanSource.fallback }
    else
      match r.issues with
      | none => { steps := [], noAction := true, source := PlanSource.fallback }
      | some issues =>
        let sevSteps := severitySteps issues
        let licSteps : List String :=
          match r.licenses with
          | some ls => if ls.length > 0 then [licenseStep ls] else []
          | none => []
        if issues.length > 0 then
          { steps := sevSteps ++ licSteps ++
              ["Add automated dependency updates (Dependabot, Renovate) and enforce Snyk scans in CI.",
               "Re-run `snyk test` after applying fixes to confirm a clean report."],
            noAction := false, source := PlanSource.fallback }
        else
          { steps := [], noAction := true, source := PlanSource.fallback }

namespace Legacy

/-- `ActionPlanAgent.generate` from the legacy planner variant
(`src/actionPlanAgent.js`, lines 14-71): same bucketing, but the plan is a
plain step list, license steps are kept, and an informational step is
appended when the issue list is empty. -/
def generate (scanResult : Option ScanResult) : List String :=
  match scanResult with
  | none => []
  | some r =>
    if !r.repositoryAccessible then
      ["Restore repository access so automated scans can run."]
    else
      match r.issues with
      | none => []
      | some issues =>
        let sevSteps := severitySteps issues
        let licSteps : List String :=
          match r.licenses with
          | some ls => if ls.length > 0 then [licenseStep ls] else []
          | none => []
        sevSteps ++ licSteps ++
          (if issues.length > 0 then
            ["Add automated dependency updates (Dependabot, Renovate) and enforce Snyk scans in CI.",
             "Re-run `snyk test` after applying fixes to confirm a clean report."]
          else
            ["No vulnerabilities found. Schedule recurring scans and keep dependencies updated."])

end Legacy

/-- The JSON object parsed from the agent's text output (line 115):
`steps` is `none` when `parsed.steps` is not an array, and `no_action`
is `Boolean(parsed.no_action)`. -/
structure ParsedAgentOutput where
  steps : Option (List String)
  no_action : Bool
  deriving DecidableEq

/-- Lines 116-118 of `generateWithOpenAI`: filter falsy steps and derive
`noAction` as declared-`no_action` OR steps-empty, tagged `'openai'`. -/
def planOfParsed (parsed : ParsedAgentOutput) : Plan :=
  let steps := (parsed.steps.getD []).filter (fun s => s != "")
  { steps := steps,
    noAction := parsed.no_action || steps.length == 0,
    source := PlanSource.openai }

/-- Oracle for the external OpenAI client. `agentsCreate` models the
expression `this.client.agents.create({...})`: the outer `Except.error` is
a synchronous throw while evaluating it (e.g. the client has no `agents`
resource), the inner `Except` is the resulting promise (rejection or an
agent handle). `requestOutcome` models the whole body of the `try` block
of `generateWithOpenAI` (the `responses.create` call, text extraction and
`JSON.parse`): `Except.error` is any throw/rejection inside the `try`. -/
structure ClientModel where
  agentsCreate : Except String (Except String Unit)
  requestOutcome : Except String ParsedAgentOutput

/-- `ActionPlanAgent.ensureAgent` (lines 29-46): without a client it
returns null; a rejection of the `create(...)` promise is caught by the
attached `.catch` and becomes null; but a synchronous throw while
evaluating `this.client.agents.create({...})` is caught nowhere in
`ensureAgent` and rejects it. (The `agentPromise` caching only memoizes
the result and does not change a single call's outcome.) -/
def ensureAgent (client : Option ClientModel) : Except String (Option Unit) :=
  match client with
  | none => Except.ok none
  | some c =>
    match c.agentsCreate with
    | Except.error e => Except.error e
    | Except.ok (Except.error _) => Except.ok none
    | Except.ok (Except.ok a) => Except.ok (some a)

/-- `ActionPlanAgent.generateWithOpenAI` (lines 48-123): `await
this.ensureAgent()` sits before the `try` block, so its rejection
propagates; every failure inside the `try` is caught and returns null. -/
def generateWithOpenAI (client : Option ClientModel) : Except String (Option Plan) :=
  match ensureAgent client, client with
  | Except.error e, _ => Except.error e
  | Except.ok none, _ => Except.ok none
  | Except.ok (some _), none => Except.ok none
  | Except.ok (some _), some c =>
    match c.requestOutcome with
    | Except.error _ => Except.ok none
    | Except.ok parsed => Except.ok (some (planOfParsed parsed))

/-- `ActionPlanAgent.generate` (lines 189-196): return the delegated plan
when one was produced, otherwise the deterministic fallback; it installs
no error handler of its own. -/
def generate (client : Option ClientModel) (scanResult : Option ScanResult) :
    Except String Plan :=
  match generateWithOpenAI client with
  | Except.error e => Except.error e
  | Except.ok (some aiPlan) => Except.ok aiPlan
  | Except.ok none => Except.ok (generateFallback scanResult)

/-- A raw Snyk issue entry as read by `formatSnykPayload`:
possibly-missing fields are options, `identifiersUrl` is the nested
`item.identifiers?.url` list, and `isPatched` is already coerced to a
boolean (`item.isPatched || false`). -/
structure RawIssue where
  id : Option String
  title : Option String
  severity : Option String
  packageName : Option String
  version : Option String
  «from» : Option (List String)
  description : Option String
  url : Option String
  identifiersUrl : Option (List String)
  publicationTime : Option String
  upgradePath : Option (List String)
  isPatched : Bool
  deriving DecidableEq

/-- A raw Snyk license entry as read by `formatSnykPayload`. -/
structure RawLicense where
  id : Option String
  title : Option String
  severity : Option String
  packageName : Option String
  description : Option String
  url : Option String
  deriving DecidableEq

/-- The slice of the parsed scanner payload that `formatSnykPayload` and
the `/api/scan` handler read. `issuesVulnerabilities` is the nested
`payload.issues?.vulnerabilities` list, `vulnerabilities` the legacy
top-level list; `errorMsg`/`userMessage` are the embedded-error fields
checked by the handler. (Target-file and dependency-count bookkeeping is
presentation-only and not involved in any claim.) -/
structure Payload where
  ok : Bool
  vulnerabilities : Option (List RawIssue)
  issuesVulnerabilities : Option (List RawIssue)
  issuesLicenses : Option (List RawLicense)
  projectName : Option String
  projectNames : Option (List String)
  displayTargetFile : Option String
  errorMsg : Option String
  userMessage : Option String

/-- The severity-count map `{ critical: 0, high: 0, medium: 0, low: 0 }`. -/
structure SeverityCounters where
  critical : Nat
  high : Nat
  medium : Nat
  low : Nat
  deriving DecidableEq

/-- One iteration of the counting loop (lines 100-104): increment the
counter keyed by `item.severity` when that severity is truthy and one of
the four recognized keys. -/
def countStep (acc : SeverityCounters) (item : RawIssue) : SeverityCounters :=
  if item.severity == some "critical" then { acc with critical := acc.critical + 1 }
  else if item.severity == some "high" then { acc with high := acc.high + 1 }
  else if item.severity == some "medium" then { acc with medium := acc.medium + 1 }
  else if item.severity == some "low" then { acc with low := acc.low + 1 }
  else acc

/-- The severity counters computed by a single pass over the issues. -/
def countersOf (issues : List RawIssue) : SeverityCounters :=
  issues.foldl countStep { critical := 0, high := 0, medium := 0, low := 0 }

/-- Is an issue's severity one of the four recognized values (the keys of
the severity-count map, i.e. the members of `severityOrder`)? -/
def recognizedSeverity (s : Option String) : Bool :=
  match s with
  | some v => v == "critical" || v == "high" || v == "medium" || v == "low"
  | none => false

/-- The per-issue mapping of `formatSnykPayload` (lines 110-122):
`url: item.url || item.identifiers?.url?.[0] || null`,
`publicationTime: item.publicationTime || null`,
`upgradePath: item.upgradePath || []`, and `from` copied through. -/
def mapIssue (item : RawIssue) : CanonicalIssue :=
  { id := item.id
    title := item.title
    severity := item.severity
    packageName := item.packageName
    version := item.version
    «from» := item.«from»
    description := item.description
    url := jsStrOrNull (jsStrOr item.url (item.identifiersUrl.bind List.head?))
    publicationTime := jsStrOrNull item.publicationTime
    upgradePath := item.upgradePath.getD []
    isPatched := item.isPatched }

/-- The per-license mapping of `formatSnykPayload` (lines 123-130). -/
def mapLicense (item : RawLicense) : CanonicalLicense :=
  { id := item.id
    title := item.title
    severity := item.severity
    packageName := item.packageName
    description := item.description
    url := jsStrOrNull item.url }

/-- JS `String.prototype.trim`: strip whitespace from both ends. -/
def jsTrim (s : String) : String :=
  String.mk (((s.data.dropWhile Char.isWhitespace).reverse.dropWhile Char.isWhitespace).reverse)

/-- Does `s` end with `suffix`? (JS regex `/\.git$/` test). -/
def strEndsWith (s suffix : String) : Bool :=
  List.isPrefixOf suffix.data.reverse s.data.reverse

/-- Drop the last `n` characters (the `replace(/\.git$/, '')` removal). -/
def strDropRight (s : String) (n : Nat) : String :=
  String.mk (s.data.take (s.data.length - n))

/-- `repoUrl.trim().replace(/\.git$/, '')`: strip one trailing `.git`
after trimming. -/
def stripGitSuffix (s : String) : String :=
  if strEndsWith s ".git" then strDropRight s 4 else s

/-- JS `String.prototype.split('/')` on the character list: splitting
yields the (possibly empty) segments between separators, `[""]` on the
empty string. -/
def splitOnChar (sep : Char) : List Char → List (List Char)
  | [] => [[]]
  | c :: cs =>
    if c = sep then [] :: splitOnChar sep cs
    else
      match splitOnChar sep cs with
      | [] => [[c]]
      | h :: t => (c :: h) :: t

/-- `cleaned.split('/')` as strings. -/
def jsSplitSlash (s : String) : List String :=
  (splitOnChar '/' s.data).map String.mk

/-- `deriveRepoName` (server lines 50-59): trim, strip one trailing
`.git`, split on `/`, drop empty segments, keep the last two, re-join.
(The surrounding `try` is unreachable for a string argument.) -/
def deriveRepoName (repoUrl : String) : String :=
  let cleaned := stripGitSuffix (jsTrim repoUrl)
  let parts := (jsSplitSlash cleaned).filter (fun seg => seg != "")
  let lastTwo := parts.drop (parts.length - 2)
  String.intercalate "/" lastTwo

/-- The project-name fallback chain (lines 73-78): explicit name, first of
the name list, declared target file, name derived from the repo URL, then
the literal. Every link uses JS truthiness, so an empty string falls
through. -/
def projectNameOf (p : Payload) (repoUrl : String) : String :=
  jsOrStr p.projectName
    (jsOrStr (p.projectNames.bind List.head?)
      (jsOrStr p.displayTargetFile
        (jsOrStrS (deriveRepoName repoUrl) "Unknown project")))

/-- Issue-list selection (lines 63-68): prefer the nested
`issues.vulnerabilities` array, fall back to the legacy top-level
`vulnerabilities` array, default to empty. -/
def jsIssuesOf (p : Payload) : List RawIssue :=
  match p.issuesVulnerabilities with
  | some l => l
  | none => p.vulnerabilities.getD []

/-- License-list selection (lines 69-71). -/
def jsLicensesOf (p : Payload) : List RawLicense :=
  p.issuesLicenses.getD []

/-- The normalized report (the fields of the object returned by
`formatSnykPayload` that the claims are about; target-file, command and
raw-payload bookkeeping carried alongside in the source is omitted). -/
structure FormattedReport where
  ok : Bool
  projectName : String
  summary : SeverityCounters
  issues : List CanonicalIssue
  licenses : List CanonicalLicense
  repositoryAccessible : Bool
  deriving DecidableEq

/-- `formatSnykPayload` (lines 61-140) restricted to the modelled fields;
`repositoryAccessible` is unconditionally true here because normalization
runs only after a successful clone. -/
def formatSnykPayload (p : Payload) (repoUrl : String) : FormattedReport :=
  let issues := jsIssuesOf p
  { ok := p.ok
    projectName := projectNameOf p repoUrl
    summary := countersOf issues
    issues := issues.map mapIssue
    licenses := (jsLicensesOf p).map mapLicense
    repositoryAccessible := true }

/-- The planner reads `repositoryAccessible`, `issues` and `licenses`
off the formatted report (duck typing in the source; an explicit
projection here). The lists are always arrays on this path. -/
def FormattedReport.toScanResult (r : FormattedReport) : ScanResult :=
  { repositoryAccessible := r.repositoryAccessible,
    issues := some r.issues,
    licenses := some r.licenses }

/-- Does `sub` occur as a contiguous run inside `l`? -/
def charsInfixOf (sub : List Char) : List Char → Bool
  | [] => sub.isEmpty
  | c :: cs => sub.isPrefixOf (c :: cs) || charsInfixOf sub cs

/-- Substring test used by `buildHelpfulErrorDetail`
(JS `String.prototype.includes`). -/
def strContains (s sub : String) : Bool :=
  charsInfixOf sub.toList s.toList

/-- JS `String.prototype.toLowerCase` (ASCII). -/
def jsToLower (s : String) : String :=
  String.mk (s.data.map Char.toLower)

/-- `buildHelpfulErrorDetail` (server lines 18-24): lowercase the detail
and, when it mentions `snyk auth` or `authentication`, append the
credential hint (then trim the concatenation). -/
def buildHelpfulErrorDetail (details : String) : String :=
  let normalized := jsToLower details
  if strContains normalized "snyk auth" || strContains normalized "authentication" then
    jsTrim
      (details ++ " Ensure the backend process has a valid SNYK_TOKEN environment variable.")
  else details

/-- The error object thrown by `execAsync`, with its captured streams
(`err.stdout`/`err.output[1]` resolved into one field, likewise stderr). -/
structure ExecErr where
  stdout : String
  stderr : String
  message : String
  deriving DecidableEq

/-- The responses the `/api/scan` handler can produce. -/
inductive ApiResponse
  | badRequest (error details : String)
  | scanFailed (details : String)
  | toolReported (details : String)
  | parseFailed (details rawOutput : String)
  | success (report : FormattedReport) (actionPlan : Plan)
  deriving DecidableEq

/-- Oracles for one `/api/scan` request: the request body's `repoUrl`
(`none` for missing or non-string), the outcome of `git.clone`, the
outcome of `execAsync(SNYK_COMMAND)`, the behavior of `JSON.parse` on the
captured text, and the OpenAI client. -/
structure HandlerEnv where
  repoUrl : Option String
  cloneResult : Except String Unit
  execResult : Except ExecErr String
  parse : String → Except String Payload
  client : Option ClientModel

/-- The observable outcome of the handler: the response sent,
whether `fs.mkdtemp` ran (the workspace was created), and whether
`cleanUpDir` was invoked on it before the handler returned. -/
structure HandlerResult where
  response : ApiResponse
  workspaceCreated : Bool
  cleaned : Bool

/-- The tail of the handler (server lines 187-206): `JSON.parse` the scan
output, check the embedded error fields, normalize, plan, respond — all
inside `try { ... } finally { await cleanUpDir(baseTempDir) }`, so every
branch records the cleanup. A rejection from `actionPlanAgent.generate`
lands in the same `catch` as a parse failure. -/
def continueScan (env : HandlerEnv) (scanOutput : String) : HandlerResult :=
  match env.parse scanOutput with
  | Except.error msg =>
    { response := ApiResponse.parseFailed msg scanOutput,
      workspaceCreated := true, cleaned := true }
  | Except.ok parsed =>
    if jsTruthy parsed.errorMsg || jsTruthy parsed.userMessage then
      { response := ApiResponse.toolReported
          (buildHelpfulErrorDetail (jsOrStr parsed.userMessage (parsed.errorMsg.getD ""))),
        workspaceCreated := true, cleaned := true }
    else
      let formatted := formatSnykPayload parsed (env.repoUrl.getD "")
      match generate env.client (some formatted.toScanResult) with
      | Except.error msg =>
        { response := ApiResponse.parseFailed msg scanOutput,
          workspaceCreated := true, cleaned := true }
      | Except.ok plan =>
        { response := ApiResponse.success formatted plan,
          workspaceCreated := true, cleaned := true }

/-- The `/api/scan` handler (server lines 142-207): validate the URL,
create the workspace, clone (cleanup + 400 on failure), run the scanner
(on a throw, use the captured stdout when non-empty, else cleanup + 500
with the helpful detail), then hand the output to `continueScan`. -/
def scanHandler (env : HandlerEnv) : HandlerResult :=
  match env.repoUrl with
  | none =>
    { response := ApiResponse.badRequest "A valid GitHub repository URL is required." "",
      workspaceCreated := false, cleaned := false }
  | some _ =>
    match env.cloneResult with
    | Except.error msg =>
      { response := ApiResponse.badRequest "Failed to clone repository." msg,
        workspaceCreated := true, cleaned := true }
    | Except.ok _ =>
      match env.execResult with
      | Except.ok stdout => continueScan env stdout
      | Except.error e =>
        if e.stdout != "" then continueScan env e.stdout
        else
          { response := ApiResponse.scanFailed
              (buildHelpfulErrorDetail (jsOrStrS e.stderr e.message)),
            workspaceCreated := true, cleaned := true }

/-! Helper lemmas. -/

lemma foldl_jsSetAdd_ne_nil (xs : List String) (acc : List String) (h : acc ≠ []) :
    xs.foldl jsSetAdd acc ≠ [] := by
  induction xs generalizing acc with
  | nil => exact h
  | cons y ys ih =>
    refine ih (jsSetAdd acc y) ?_
    unfold jsSetAdd
    split
    · exact h
    · rcases acc with _ | ⟨a, as⟩
      · exact absurd rfl h
      · simp

lemma jsSetDedup_ne_nil (l : List String) (h : l ≠ []) : jsSetDedup l ≠ [] := by
  rcases l with _ | ⟨x, xs⟩
  · exact absurd rfl h
  · unfold jsSetDedup
    rw [List.foldl_cons]
    refine foldl_jsSetAdd_ne_nil xs (jsSetAdd [] x) ?_
    simp [jsSetAdd]

lemma generateFallback_noAction_iff (r? : Option ScanResult) :
    ((generateFallback r?).noAction = true ↔ (generateFallback r?).steps = []) := by
  rcases r? with _ | r
  · simp [generateFallback]
  · rcases hacc : r.repositoryAccessible with _ | _
    · simp [generateFallback, hacc]
    · rcases hiss : r.issues with _ | issues
      · simp [generateFallback, hacc, hiss]
      · rcases issues with _ | ⟨i, is⟩
        · simp [generateFallback, hacc, hiss]
        · simp [generateFallback, hacc, hiss]

lemma planOfParsed_steps_nil (parsed : ParsedAgentOutput)
    (hs : (planOfParsed parsed).steps = []) : (planOfParsed parsed).noAction = true := by
  unfold planOfParsed at hs ⊢
  simp only at hs ⊢
  rw [hs]
  simp

lemma generateWithOpenAI_ok_some {client : Option ClientModel} {q : Plan}
    (h : generateWithOpenAI client = Except.ok (some q)) :
    ∃ parsed, q = planOfParsed parsed := by
  rcases client with _ | c
  · simp [generateWithOpenAI, ensureAgent] at h
  · rcases ha : c.agentsCreate with e | inner
    · simp [generateWithOpenAI, ensureAgent, ha] at h
    · rcases inner with e2 | agent
      · simp [generateWithOpenAI, ensureAgent, ha] at h
      · rcases hr : c.requestOutcome with e3 | parsed
        · simp [generateWithOpenAI, ensureAgent, ha, hr] at h
        · refine ⟨parsed, ?_⟩
          simp [generateWithOpenAI, ensureAgent, ha, hr] at h
          exact h.symm

/-! Concrete fixtures used by the claim theorems. -/

/-- A normalized clean report: repository accessible, no issues, no
license findings. -/
def emptyScanResult : ScanResult :=
  { repositoryAccessible := true, issues := some [], licenses := some [] }

/-- A client whose delegated response declares `no_action: true` while
also returning one concrete step. -/
def c1Client : ClientModel :=
  { agentsCreate := Except.ok (Except.ok ()),
    requestOutcome := Except.ok { steps := some ["Upgrade lodash to 4.17.21"], no_action := true } }

/-- The plan the delegated path produces from `c1Client`. -/
def c1Plan : Plan :=
  { steps := ["Upgrade lodash to 4.17.21"], noAction := true, source := PlanSource.openai }

/-- Claim C1, counterexample: with a delegated response declaring
`no_action: true` alongside a non-empty `steps` array, the top-level
generate returns a plan whose `noAction` is true while its steps are
non-empty, so `noAction ⟺ steps empty` fails for plans produced by the
delegated path. -/
theorem c1_counterexample :
    generate (some c1Client) (some emptyScanResult) = Except.ok c1Plan ∧
    ¬ (c1Plan.noAction = true ↔ c1Plan.steps = []) := by
  constructor
  · rfl
  · decide

/-- Claim C1 (amended): for every plan returned by the top-level generate,
empty steps force `noAction = true`; and every plan produced by the
deterministic fallback path satisfies the full equivalence
`noAction = true ⟺ steps = []`. A delegated plan may have `noAction`
true with non-empty steps, because line 117 derives it as
`Boolean(parsed.no_action) || steps.length === 0`. -/
theorem c1_noaction_iff_amended (client : Option ClientModel) (r? : Option ScanResult)
    (p : Plan) (h : generate client r? = Except.ok p) :
    (p.steps = [] → p.noAction = true) ∧
    (p.source = PlanSource.fallback → (p.noAction = true ↔ p.steps = [])) := by
  unfold generate at h
  rcases hg : generateWithOpenAI client with e | op
  · rw [hg] at h; simp at h
  · rw [hg] at h
    rcases op with _ | q
    · simp only at h
      have hp : generateFallback r? = p := by
        injection h
      constructor
      · intro hs
        rw [← hp] at hs ⊢
        exact (generateFallback_noAction_iff r?).2 hs
      · intro _
        rw [← hp]
        exact generateFallback_noAction_iff r?
    · simp only at h
      have hp : q = p := by injection h
      obtain ⟨parsed, hq⟩ := generateWithOpenAI_ok_some hg
      subst hp
      subst hq
      constructor
      · exact planOfParsed_steps_nil parsed
      · intro hsrc
        exact absurd hsrc (by simp [planOfParsed])

/-- Witness for the amended C1 theorem at a concrete input: with no
client configured, generate returns the fallback plan for the clean
report. -/
theorem c1_amended_witness :
    ((Plan.mk [] true PlanSource.fallback).steps = [] →
      (Plan.mk [] true PlanSource.fallback).noAction = true) ∧
    ((Plan.mk [] true PlanSource.fallback).source = PlanSource.fallback →
      ((Plan.mk [] true PlanSource.fallback).noAction = true ↔
        (Plan.mk [] true PlanSource.fallback).steps = [])) :=
  c1_noaction_iff_amended none (some emptyScanResult)
    (Plan.mk [] true PlanSource.fallback) rfl

/-- Claim C2, counterexample: on an accessible report with an empty
issues array (and no license step), `generateFallback` returns empty
steps — not the single "no vulnerabilities" informational step. That
informational step exists only in the legacy planner variant, whose plan
is a plain list with no `noAction` flag at all. -/
theorem c2_counterexample :
    generateFallback (some emptyScanResult) =
      { steps := [], noAction := true, source := PlanSource.fallback } ∧
    (generateFallback (some emptyScanResult)).steps ≠
      ["No vulnerabilities found. Schedule recurring scans and keep dependencies updated."] ∧
    Legacy.generate (some emptyScanResult) =
      ["No vulnerabilities found. Schedule recurring scans and keep dependencies updated."] := by
  refine ⟨rfl, ?_, rfl⟩
  decide

/-- Claim C2 (amended): for every report with `repositoryAccessible` true
and an empty issues array, the deterministic planner returns a plan with
empty steps and `noAction = true`; no informational step is emitted. -/
theorem c2_empty_issues_amended (r : ScanResult)
    (hacc : r.repositoryAccessible = true) (hiss : r.issues = some []) :
    generateFallback (some r) =
      { steps := [], noAction := true, source := PlanSource.fallback } := by
  simp [generateFallback, hacc, hiss]

/-- Witness for the amended C2 theorem on the concrete clean report. -/
theorem c2_amended_witness :
    generateFallback (some emptyScanResult) =
      { steps := [], noAction := true, source := PlanSource.fallback } :=
  c2_empty_issues_amended emptyScanResult rfl rfl

/-- A report with no security issues but one license finding. -/
def c3Report : ScanResult :=
  { repositoryAccessible := true,
    issues := some [],
    licenses := some
      [{ id := some "snyk:lic:npm:lodash:MIT", title := some "MIT license",
         severity := some "medium", packageName := some "lodash",
         description := none, url := none }] }

/-- Claim C3 (code bug): with an accessible report, an empty issues array
and a non-empty licenses list, `generateFallback` pushes the
license-review step but then discards it — the final return (lines
182-186) builds a fresh `steps: []` — so the returned steps do NOT
include the license step. The legacy planner variant, by contrast,
retains it, which is what the claim (and the spec) describe. -/
theorem c3_license_step_dropped :
    generateFallback (some c3Report) =
      { steps := [], noAction := true, source := PlanSource.fallback } ∧
    Legacy.generate (some c3Report) =
      ["Review license findings for lodash with legal/compliance teams.",
       "No vulnerabilities found. Schedule recurring scans and keep dependencies updated."] := by
  constructor
  · rfl
  · rfl

/-- Six distinct package names. -/
def c6SixNames : List (Option String) :=
  [some "a", some "b", some "c", some "d", some "e", some "f"]

/-- Two distinct package names. -/
def c6TwoNames : List (Option String) := [some "a", some "b"]

/-- Two issues naming the same package. -/
def c6DupNames : List (Option String) := [some "a", some "a"]

/-- Claim C6, counterexample: two issues naming the same single package
produce `"a, …"` — the ellipsis marker appears although only one distinct
package name exists, because line 18 compares the duplicated occurrence
count (`packages.length`) against the listed names, not the distinct
count. -/
theorem c6_counterexample :
    summarizePackages c6DupNames = some "a, …" ∧
    (jsSetDedup (truthyPackages c6DupNames)).length = 1 ∧
    ¬ (5 < (jsSetDedup (truthyPackages c6DupNames)).length) := by
  refine ⟨rfl, rfl, ?_⟩
  decide

/-- Claim C6 (amended): the summary lists the first-seen distinct truthy
package names up to five, comma-joined; the trailing ellipsis marker is
present if and only if the number of truthy package-name occurrences
(counted with multiplicity) exceeds the number of names listed, i.e.
`min 5 (number of distinct names)`. In particular the six-distinct-names
and two-distinct-names examples behave exactly as the claim states, but
with duplicate names the marker can appear even though at most five
distinct names exist. -/
theorem c6_summarize_amended :
    summarizePackages c6SixNames = some "a, b, c, d, e, …" ∧
    summarizePackages c6TwoNames = some "a, b" ∧
    (∀ pns : List (Option String),
      (truthyPackages pns = [] → summarizePackages pns = none) ∧
      (truthyPackages pns ≠ [] →
        summarizePackages pns =
          some (String.intercalate ", " ((jsSetDedup (truthyPackages pns)).take 5) ++
            (if (truthyPackages pns).length > ((jsSetDedup (truthyPackages pns)).take 5).length
             then ", …" else "")))) := by
  refine ⟨rfl, rfl, fun pns => ⟨?_, ?_⟩⟩
  · intro h0
    simp [summarizePackages, h0, jsSetDedup]
  · intro hne
    have hd : jsSetDedup (truthyPackages pns) ≠ [] := jsSetDedup_ne_nil _ hne
    have ht : ¬ (((jsSetDedup (truthyPackages pns)).take 5).length = 0) := by
      rcases hh : jsSetDedup (truthyPackages pns) with _ | ⟨d, ds⟩
      · exact absurd hh hd
      · simp
    unfold summarizePackages
    dsimp only
    rw [if_neg ht]
    by_cases hgt :
        (truthyPackages pns).length > ((jsSetDedup (truthyPackages pns)).take 5).length
    · rw [if_pos hgt, if_pos hgt]
    · rw [if_neg hgt, if_neg hgt]
      simp

/-- Witness for the amended C6 theorem at the two-name input. -/
theorem c6_amended_witness :
    summarizePackages c6TwoNames =
      some (String.intercalate ", " ((jsSetDedup (truthyPackages c6TwoNames)).take 5) ++
        (if (truthyPackages c6TwoNames).length >
            ((jsSetDedup (truthyPackages c6TwoNames)).take 5).length
         then ", …" else "")) :=
  (c6_summarize_amended.2.2 c6TwoNames).2 (by decide)

/-- A client on which evaluating `this.client.agents.create({...})`
throws synchronously (the client object has no `agents` resource — the
case with the published `openai` package). -/
def c9BadClient : ClientModel :=
  { agentsCreate := Except.error "TypeError: Cannot read properties of undefined (reading create)",
    requestOutcome := Except.error "unreached" }

/-- Claim C9 (code bug): a synchronous throw while initiating session
creation rejects `ensureAgent`, and `await this.ensureAgent()` sits
before the `try` of `generateWithOpenAI` (line 49), so the error escapes
`generate` to its caller instead of triggering the deterministic
fallback. -/
theorem c9_sync_throw_propagates :
    generate (some c9BadClient) (some emptyScanResult) =
      Except.error "TypeError: Cannot read properties of undefined (reading create)" := by
  rfl

/-! Counting lemmas for the severity counters. -/

lemma foldl_countStep (l : List RawIssue) : ∀ acc : SeverityCounters,
    l.foldl countStep acc =
      { critical := acc.critical + (l.filter (fun i => i.severity == some "critical")).length,
        high := acc.high + (l.filter (fun i => i.severity == some "high")).length,
        medium := acc.medium + (l.filter (fun i => i.severity == some "medium")).length,
        low := acc.low + (l.filter (fun i => i.severity == some "low")).length } := by
  induction l with
  | nil => intro acc; simp
  | cons i is ih =>
    intro acc
    rw [List.foldl_cons, ih]
    rcases hs : i.severity with _ | s
    · simp [countStep, hs]
    · by_cases h1 : s = "critical"
      · subst h1
        simp [countStep, hs, SeverityCounters.mk.injEq, List.filter_cons]
        omega
      · by_cases h2 : s = "high"
        · subst h2
          simp [countStep, hs, SeverityCounters.mk.injEq, List.filter_cons]
          omega
        · by_cases h3 : s = "medium"
          · subst h3
            simp [countStep, hs, SeverityCounters.mk.injEq, List.filter_cons]
            omega
          · by_cases h4 : s = "low"
            · subst h4
              simp [countStep, hs, SeverityCounters.mk.injEq, List.filter_cons]
              omega
            · simp [countStep, hs, h1, h2, h3, h4, List.filter_cons]

lemma count_sum_recognized (l : List RawIssue) :
    (l.filter (fun i => i.severity == some "critical")).length
      + (l.filter (fun i => i.severity == some "high")).length
      + (l.filter (fun i => i.severity == some "medium")).length
      + (l.filter (fun i => i.severity == some "low")).length
      = (l.filter (fun i => recognizedSeverity i.severity)).length := by
  induction l with
  | nil => rfl
  | cons i is ih =>
    simp only [List.filter_cons]
    rcases hs : i.severity with _ | s
    · simp [recognizedSeverity] at ih ⊢
      omega
    · by_cases h1 : s = "critical"
      · subst h1
        simp [recognizedSeverity] at ih ⊢
        omega
      · by_cases h2 : s = "high"
        · subst h2
          simp [recognizedSeverity] at ih ⊢
          omega
        · by_cases h3 : s = "medium"
          · subst h3
            simp [recognizedSeverity] at ih ⊢
            omega
          · by_cases h4 : s = "low"
            · subst h4
              simp [recognizedSeverity] at ih ⊢
              omega
            · simp [recognizedSeverity, h1, h2, h3, h4] at ih ⊢
              omega

lemma length_filter_map_severity (l : List RawIssue) (q : Option String → Bool) :
    ((l.map mapIssue).filter (fun i => q i.severity)).length
      = (l.filter (fun i => q i.severity)).length := by
  induction l with
  | nil => rfl
  | cons i is ih =>
    simp only [List.map_cons, List.filter_cons]
    have hsev : (mapIssue i).severity = i.severity := rfl
    rw [hsev]
    by_cases hq : q i.severity
    · simp [hq, ih]
    · simp [hq, ih]

lemma filter_mapIssue_severity (l : List RawIssue) (v : String) :
    ((l.map mapIssue).filter (fun i => i.severity == some v)).length
      = (l.filter (fun i => i.severity == some v)).length :=
  length_filter_map_severity l (fun s => s == some v)

lemma filter_mapIssue_recognized (l : List RawIssue) :
    ((l.map mapIssue).filter (fun i => recognizedSeverity i.severity)).length
      = (l.filter (fun i => recognizedSeverity i.severity)).length :=
  length_filter_map_severity l recognizedSeverity

/-- Claim C4: in every normalized report, each severity counter equals
the number of canonical issues carrying exactly that severity, the sum of
the four counters equals the number of issues with a recognized
severity, and the issue list keeps every raw issue (so issues with
unrecognized or missing severity are excluded from the counters but still
present). -/
theorem c4_severity_counters (p : Payload) (repoUrl : String) :
    ((formatSnykPayload p repoUrl).summary.critical =
      ((formatSnykPayload p repoUrl).issues.filter
        (fun i => i.severity == some "critical")).length) ∧
    ((formatSnykPayload p repoUrl).summary.high =
      ((formatSnykPayload p repoUrl).issues.filter
        (fun i => i.severity == some "high")).length) ∧
    ((formatSnykPayload p repoUrl).summary.medium =
      ((formatSnykPayload p repoUrl).issues.filter
        (fun i => i.severity == some "medium")).length) ∧
    ((formatSnykPayload p repoUrl).summary.low =
      ((formatSnykPayload p repoUrl).issues.filter
        (fun i => i.severity == some "low")).length) ∧
    ((formatSnykPayload p repoUrl).summary.critical + (formatSnykPayload p repoUrl).summary.high
        + (formatSnykPayload p repoUrl).summary.medium + (formatSnykPayload p repoUrl).summary.low
      = ((formatSnykPayload p repoUrl).issues.filter
          (fun i => recognizedSeverity i.severity)).length) ∧
    ((formatSnykPayload p repoUrl).issues.length = (jsIssuesOf p).length) := by
  have hsum : (formatSnykPayload p repoUrl).summary = countersOf (jsIssuesOf p) := rfl
  have hiss : (formatSnykPayload p repoUrl).issues = (jsIssuesOf p).map mapIssue := rfl
  rw [hsum, hiss]
  refine ⟨?_, ?_, ?_, ?_, ?_, ?_⟩
  · rw [filter_mapIssue_severity]
    simp [countersOf, foldl_countStep]
  · rw [filter_mapIssue_severity]
    simp [countersOf, foldl_countStep]
  · rw [filter_mapIssue_severity]
    simp [countersOf, foldl_countStep]
  · rw [filter_mapIssue_severity]
    simp [countersOf, foldl_countStep]
  · rw [filter_mapIssue_recognized, ← count_sum_recognized]
    simp [countersOf, foldl_countStep]
  · simp

/-- A raw issue carrying none of the optional fields. -/
def c7RawIssue : RawIssue :=
  { id := none, title := none, severity := none, packageName := none, version := none,
    «from» := none, description := none, url := none, identifiersUrl := none,
    publicationTime := none, upgradePath := none, isPatched := false }

/-- Claim C7, counterexample: when the raw `from` field is missing, the
canonical issue's `from` is absent (`undefined` is copied through by
`from: item.from`), not the empty list — while `upgradePath` does default
to the empty list. -/
theorem c7_counterexample :
    (mapIssue c7RawIssue).«from» = none ∧
    (mapIssue c7RawIssue).«from» ≠ some ([] : List String) ∧
    (mapIssue c7RawIssue).upgradePath = ([] : List String) := by
  refine ⟨rfl, ?_, rfl⟩
  decide

/-- Claim C7 (amended): `upgradePath` defaults to the empty list when the
raw field is missing and `url` falls back from the explicit field to the
first entry of the nested `identifiers.url` list and else to null, as
claimed; but the dependency path `from` is copied through unchanged, so
it is absent — not an empty list — when the raw field is missing. -/
theorem c7_mapping_amended (item : RawIssue) :
    (mapIssue item).upgradePath = item.upgradePath.getD [] ∧
    (mapIssue item).«from» = item.«from» ∧
    (mapIssue item).url =
      (if jsTruthy item.url then item.url
       else if jsTruthy (item.identifiersUrl.bind List.head?) then
         item.identifiersUrl.bind List.head?
       else none) := by
  refine ⟨rfl, rfl, ?_⟩
  show jsStrOrNull (jsStrOr item.url (item.identifiersUrl.bind List.head?)) = _
  by_cases hu : jsTruthy item.url
  · simp [jsStrOr, jsStrOrNull, hu]
  · simp [jsStrOr, jsStrOrNull, hu]

/-- Claim C5: after a scanner throw, the pipeline proceeds with the
captured standard output exactly when it is non-empty (continuing into
parsing/normalization, never a scan-failure response), and responds with
the 500-class scan failure exactly when it is empty, with
`stderr || err.message` as the detail; `buildHelpfulErrorDetail` appends
the credential hint precisely when the lowercased detail mentions
`snyk auth` or `authentication`. -/
theorem c5_nonzero_exit_policy (env : HandlerEnv) (e : ExecErr)
    (hurl : env.repoUrl.isSome = true)
    (hclone : env.cloneResult = Except.ok ())
    (hexec : env.execResult = Except.error e) :
    (e.stdout ≠ "" → scanHandler env = continueScan env e.stdout) ∧
    (∀ s d, (continueScan env s).response ≠ ApiResponse.scanFailed d) ∧
    (e.stdout = "" →
      scanHandler env =
        { response := ApiResponse.scanFailed
            (buildHelpfulErrorDetail (jsOrStrS e.stderr e.message)),
          workspaceCreated := true, cleaned := true }) ∧
    (∀ d : String,
      (strContains (jsToLower d) "snyk auth" || strContains (jsToLower d) "authentication")
          = true →
        buildHelpfulErrorDetail d =
          jsTrim (d ++ " Ensure the backend process has a valid SNYK_TOKEN environment variable.")) ∧
    (∀ d : String,
      (strContains (jsToLower d) "snyk auth" || strContains (jsToLower d) "authentication")
          = false →
        buildHelpfulErrorDetail d = d) := by
  obtain ⟨u, hu⟩ := Option.isSome_iff_exists.1 hurl
  refine ⟨?_, ?_, ?_, ?_, ?_⟩
  · intro hne
    unfold scanHandler
    rw [hu, hclone, hexec]
    simp only
    rw [if_pos (by simpa using hne)]
  · intro s d
    unfold continueScan
    rcases hp : env.parse s with msg | parsed
    · simp
    · simp only
      split
      · simp
      · rcases hg : generate env.client
            (some (formatSnykPayload parsed (env.repoUrl.getD "")).toScanResult) with m | pl
        · simp
        · simp
  · intro hemp
    unfold scanHandler
    rw [hu, hclone, hexec]
    simp only
    rw [if_neg (by simp [hemp])]
  · intro d hcond
    unfold buildHelpfulErrorDetail
    simp only
    rw [if_pos hcond]
  · intro d hcond
    unfold buildHelpfulErrorDetail
    simp only
    rw [if_neg (by simp [hcond])]

/-- A request environment whose scanner throws with empty stdout and an
authentication message on stderr. -/
def c5Env : HandlerEnv :=
  { repoUrl := some "https://github.com/acme/widgets",
    cloneResult := Except.ok (),
    execResult := Except.error { stdout := "", stderr := "snyk auth required", message := "boom" },
    parse := fun _ => Except.error "unexpected token",
    client := none }

/-- Witness for C5 at a concrete failing scan: empty stdout yields the
500-class failure, whose detail carries the credential hint. -/
theorem c5_witness :
    scanHandler c5Env =
      { response := ApiResponse.scanFailed
          (buildHelpfulErrorDetail (jsOrStrS "snyk auth required" "boom")),
        workspaceCreated := true, cleaned := true } ∧
    buildHelpfulErrorDetail (jsOrStrS "snyk auth required" "boom") =
      "snyk auth required Ensure the backend process has a valid SNYK_TOKEN environment variable." := by
  constructor
  · exact (c5_nonzero_exit_policy c5Env
      { stdout := "", stderr := "snyk auth required", message := "boom" } rfl rfl rfl).2.2.1 rfl
  · rfl

/-- Claim C8: the cleanup flag equals the workspace-creation flag on
every terminating path of the handler — once the workspace directory is
created, `cleanUpDir` is invoked before the handler returns, on the
clone-failure, scanner-total-failure, tool-reported-error, parse-failure
and success paths alike. -/
theorem c8_cleanup_always (env : HandlerEnv) :
    (scanHandler env).cleaned = (scanHandler env).workspaceCreated := by
  have hc : ∀ s, (continueScan env s).cleaned = (continueScan env s).workspaceCreated := by
    intro s
    unfold continueScan
    rcases hp : env.parse s with msg | parsed
    · rfl
    · simp only
      split
      · rfl
      · rcases hg : generate env.client
            (some (formatSnykPayload parsed (env.repoUrl.getD "")).toScanResult) with m | pl
        · rfl
        · rfl
  unfold scanHandler
  rcases hu : env.repoUrl with _ | u
  · rfl
  · rcases hcl : env.cloneResult with msg | uu
    · rfl
    · rcases hex : env.execResult with e | outText
      · simp only
        split
        · exact hc _
        · rfl
      · exact hc _

/-- The payload with every modelled field absent. -/
def c10Payload : Payload :=
  { ok := false, vulnerabilities := none, issuesVulnerabilities := none,
    issuesLicenses := none, projectName := none, projectNames := none,
    displayTargetFile := none, errorMsg := none, userMessage := none }

/-- Claim C10: the derived project name is the last two non-empty
`/`-separated segments of the trimmed, `.git`-stripped location, joined
with `/`; with no non-empty segments it is the empty string, and then the
project-name fallback chain (all earlier links falsy) ends at the literal
`"Unknown project"`. -/
theorem c10_derive_repo_name (s : String) (p : Payload) :
    (deriveRepoName s =
      String.intercalate "/"
        ((((jsSplitSlash (stripGitSuffix (jsTrim s))).filter
            (fun seg => seg != "")).reverse.take 2).reverse)) ∧
    (((jsSplitSlash (stripGitSuffix (jsTrim s))).filter (fun seg => seg != "")) = [] →
      deriveRepoName s = "") ∧
    (p.projectName = none → p.projectNames = none → p.displayTargetFile = none →
      deriveRepoName s = "" → projectNameOf p s = "Unknown project") := by
  have key : ∀ l : List String, l.drop (l.length - 2) = (l.reverse.take 2).reverse := by
    intro l
    rw [show l.drop (l.length - 2) = l.rtake 2 from rfl, List.rtake_eq_reverse_take_reverse]
  refine ⟨?_, ?_, ?_⟩
  · unfold deriveRepoName
    exact congrArg (String.intercalate "/") (key _)
  · intro h
    unfold deriveRepoName
    dsimp only
    rw [h]
    rfl
  · intro h1 h2 h3 h4
    unfold projectNameOf
    rw [h1, h2, h3, h4]
    rfl

/-- Witness for C10 at a location with no non-empty segments: the derived
name is empty and the fallback chain continues to the literal. -/
theorem c10_witness :
    deriveRepoName "///" = "" ∧ projectNameOf c10Payload "///" = "Unknown project" := by
  have h := c10_derive_repo_name "///" c10Payload
  have h2 : deriveRepoName "///" = "" := h.2.1 rfl
  exact ⟨h2, h.2.2 rfl rfl rfl h2⟩

end SnykScanner
